import Mathlib

/-!
Verification of the pymer k-mer counting library.

This file embeds the data model and operations of the `pymer` package
(the k-mer codec, `ExactKmerCounter`, `CountMinKmerCounter`, and the two
versioned serializers in `pymer/__init__.py` and `pymer/base.py`) as
executable Lean definitions, and proves or refutes the claims of the
specification against them.

Modelling conventions:
- numpy arrays become `List Int` (exact counter, dtype=int) or
  `List (List Nat)` (sketch, unsigned cells of a given bit width, values
  kept below `2 ^ width` by taking the residue exactly where numpy
  casts/wraps);
- a Python call that can raise becomes a `PyResult`: either an exception
  propagates (`raised`) or a value returns (`returned`);
- the external xxh64 hash is an explicit parameter `hash : Nat → Nat → Nat`
  (seed, packed identifier) of every sketch operation;
- the codec `pymer._hash` is a compiled Cython extension whose source
  (`src/pymer/_hash.pyx`, built by `setup.py`) is not in the tree, so its
  three functions are modelled from the specification, checked against the
  tests in `pymer/tests.py`.
-/

namespace Pymer

/-- The default DNA alphabet used throughout the package. -/
def alphaDNA : List Char := ['A', 'C', 'G', 'T']

/-- Modelled from the spec: `kmer_hash` of the missing Cython module
`pymer._hash`.  Spec section 3: the identifier of a k-symbol window is the
mixed-radix positional number `id = sum of position(symbol_i) * |alphabet| ^ (k-1-i)`;
this structural recursion computes exactly that sum, most significant
symbol first. -/
def kmer_hash (alphabet : List Char) (w : List Char) : Nat :=
  match w with
  | [] => 0
  | c :: rest => alphabet.indexOf c * alphabet.length ^ rest.length + kmer_hash alphabet rest

/-- Modelled from the spec: `hash_to_kmer` of the missing Cython module
`pymer._hash` (spec section 4.1 decode): inverse mixed-radix
decomposition, producing the k-length symbol string, most significant
digit first.  The default character is never reached for identifiers in
range. -/
def hash_to_kmer (alphabet : List Char) (h : Nat) (k : Nat) : List Char :=
  match k with
  | 0 => []
  | n + 1 =>
      alphabet.getD (h / alphabet.length ^ n) 'X' ::
        hash_to_kmer alphabet (h % alphabet.length ^ n) n

/-- All length-k sliding windows of a sequence, in order of start position. -/
def windows (s : List Char) (k : Nat) : List (List Char) :=
  (List.range (s.length + 1 - k)).map (fun i => (s.drop i).take k)

/-- A window is valid when every symbol belongs to the alphabet. -/
def validWindow (alphabet : List Char) (w : List Char) : Bool :=
  w.all (fun c => alphabet.contains c)

/-- Modelled from the spec: `iter_kmers` of the missing Cython module
`pymer._hash` (spec section 4.1 `encode_windows`): slides a length-k
window across the sequence; each window fully composed of alphabet
symbols yields its mixed-radix identifier; windows containing any symbol
outside the alphabet are skipped entirely.  Checked against
`test_iter_kmers` and `test_iter_kmers_ns` in `pymer/tests.py`. -/
def iter_kmers (alphabet : List Char) (s : List Char) (k : Nat) : List Nat :=
  ((windows s k).filter (validWindow alphabet)).map (kmer_hash alphabet)

-- `test_iter_kmers_ns`: seq "ACGTNACGTNCG", k = 3, expected ids
-- [0b000110, 0b011011, 0b000110, 0b011011].
example :
    iter_kmers alphaDNA
      ['A','C','G','T','N','A','C','G','T','N','C','G'] 3 = [6, 27, 6, 27] := by
  decide

-- `test_hash_to_kmer`: for k = 2 the identifiers 0..15 decode to the
-- 2-mers in product order AA, AC, AG, AT, CA, ...
example : hash_to_kmer alphaDNA 0 2 = ['A', 'A'] := by decide
example : hash_to_kmer alphaDNA 1 2 = ['A', 'C'] := by decide
example : hash_to_kmer alphaDNA 11 2 = ['G', 'T'] := by decide
example : hash_to_kmer alphaDNA 15 2 = ['T', 'T'] := by decide

/-! ## Python exceptions and call results -/

/-- The exceptions the embedded code can produce. -/
inductive PyErr where
  | valueError (msg : String)
  | nameError (missing : String)
  | stopIteration
  | indexError
deriving DecidableEq

/-- Outcome of a Python call: either an exception propagates out of the
call (`raised`), or the call returns a value normally (`returned`). -/
inductive PyResult (α : Type) where
  | raised (e : PyErr)
  | returned (v : α)
deriving DecidableEq

/-- A counter query argument: the source dispatches on
`isinstance(item, (str, bytes))`, so an argument is either a pre-encoded
integer identifier or a raw symbol string. -/
inductive KmerQuery where
  | ident (n : Nat)
  | str (s : List Char)
deriving DecidableEq

/-- Value returned by a `__getitem__` call: either an array cell, or — on
the wrong-length branch, which says `return ValueError(msg)` instead of
`raise` — the exception OBJECT handed back as the result. -/
inductive QueryVal where
  | count (v : Int)
  | excObject (e : PyErr)
deriving DecidableEq

/-- The message built (and returned, not raised) by the wrong-length
branches of `__getitem__` and `__setitem__`. -/
def lengthMsg : String := "KmerCounter must be queried with k-length kmers"

/-! ## ExactKmerCounter (`pymer/__init__.py` lines 156-229)

The backing numpy array has dtype `int`, i.e. fixed-width int64 cells
whose arithmetic wraps on overflow.  Slots are carried as `Int`, and
the mutation paths that can overflow in the source — the consume
increment `self[kmer] += 1`, the unconsume decrement, and the
element-wise `+=` of `__add__` — push their results through `wrap64`,
so reachable slot values stay inside the int64 range exactly as in the
source.  The `-=` of `__sub__` cannot leave the int64 range on int64
cells that are non-negative (the stated state invariant), so it is kept
as the plain difference followed by the `clip(min=0)`. -/

/-- The numpy `dtype=int` (int64) maximum, `2 ^ 63 - 1`. -/
def int64max : Int := 9223372036854775807

/-- Reduce an integer into the int64 range `[-2 ^ 63, 2 ^ 63)`, as numpy
int64 arithmetic does on overflow. -/
def wrap64 (v : Int) : Int :=
  (v + 9223372036854775808) % 18446744073709551616 - 9223372036854775808

/-- `wrap64` is the identity on values already inside the int64 range. -/
theorem wrap64_eq_self (v : Int) (h1 : -9223372036854775808 ≤ v)
    (h2 : v ≤ int64max) : wrap64 v = v := by
  unfold wrap64
  unfold int64max at h2
  omega

structure ExactKmerCounter where
  k : Nat
  alphabet : List Char
  array : List Int
deriving DecidableEq

/-- `len(alphabet) ** k`, as set by `__init__`. -/
def ExactKmerCounter.num_kmers (c : ExactKmerCounter) : Nat :=
  c.alphabet.length ^ c.k

/-- `ExactKmerCounter(k, alphabet)` with the default zero array. -/
def mkExact (k : Nat) (alphabet : List Char) : ExactKmerCounter :=
  ⟨k, alphabet, List.replicate (alphabet.length ^ k) 0⟩

/-- Read `self.array[n]` for an integer index: the cell if in range,
IndexError otherwise. -/
def ExactKmerCounter.readSlot (c : ExactKmerCounter) (n : Nat) : PyResult QueryVal :=
  if n < c.array.length then .returned (.count (c.array.getD n 0))
  else .raised .indexError

/-- `ExactKmerCounter.__getitem__` (lines 201-207).  Note two source
behaviours kept faithfully: the wrong-length branch RETURNS the
ValueError object instead of raising it, and the string branch calls
`next(iter_kmers(item, self.k))`, which raises StopIteration when the
string contains a symbol outside the alphabet (the iterator is empty). -/
def ExactKmerCounter.getitem (c : ExactKmerCounter) (q : KmerQuery) : PyResult QueryVal :=
  match q with
  | .str s =>
      if s.length ≠ c.k then .returned (.excObject (.valueError lengthMsg))
      else
        match iter_kmers c.alphabet s c.k with
        | [] => .raised .stopIteration
        | h :: _ => c.readSlot h
  | .ident n => c.readSlot n

/-- `ExactKmerCounter.__setitem__` (lines 209-215).  The wrong-length
branch returns the ValueError object (array untouched).  The string
branch then evaluates `kmer_hash(item)`: `pymer/__init__.py` imports only
`iter_kmers` and `hash_to_kmer` from `._hash` (lines 90-93) and never
defines `kmer_hash`, so that name lookup raises NameError before the
array is touched. -/
def ExactKmerCounter.setitem (c : ExactKmerCounter) (q : KmerQuery) (v : Int) :
    PyResult ExactKmerCounter :=
  match q with
  | .str s =>
      if s.length ≠ c.k then .returned c
      else .raised (.nameError "kmer_hash")
  | .ident n =>
      if n < c.array.length then .returned ⟨c.k, c.alphabet, c.array.set n v⟩
      else .raised .indexError

/-- One step of `BaseCounter.consume` (lines 107-110): `self[kmer] += 1`
for an integer identifier, i.e. read the cell, add one in int64 scalar
arithmetic — which wraps a slot at `int64max` around to `-2 ^ 63` — and
write it back. -/
def exactStep (acc : PyResult ExactKmerCounter) (id : Nat) : PyResult ExactKmerCounter :=
  match acc with
  | .raised e => .raised e
  | .returned c =>
      if id < c.array.length
      then .returned ⟨c.k, c.alphabet, c.array.set id (wrap64 (c.array.getD id 0 + 1))⟩
      else .raised .indexError

/-- `BaseCounter.consume` (lines 107-110): one increment per identifier
yielded by `iter_kmers`. -/
def ExactKmerCounter.consume (c : ExactKmerCounter) (s : List Char) :
    PyResult ExactKmerCounter :=
  List.foldl exactStep (.returned c) (iter_kmers c.alphabet s c.k)

/-- One step of `BaseCounter.unconsume` (lines 112-115):
`self[kmer] = max(self[kmer] - 1, 0)`, the decrement computed in int64
scalar arithmetic (it wraps only at `-2 ^ 63`, which `max` then clamps). -/
def exactUnstep (acc : PyResult ExactKmerCounter) (id : Nat) : PyResult ExactKmerCounter :=
  match acc with
  | .raised e => .raised e
  | .returned c =>
      if id < c.array.length
      then .returned ⟨c.k, c.alphabet, c.array.set id (max (wrap64 (c.array.getD id 0 - 1)) 0)⟩
      else .raised .indexError

/-- `BaseCounter.unconsume` (lines 112-115). -/
def ExactKmerCounter.unconsume (c : ExactKmerCounter) (s : List Char) :
    PyResult ExactKmerCounter :=
  List.foldl exactUnstep (.returned c) (iter_kmers c.alphabet s c.k)

/-- `ExactKmerCounter.__add__` (lines 179-186): requires equal k and
alphabet, then element-wise int64 array addition, which wraps on
overflow (equal-length arrays for well-formed counters; `zipWith`
realises the element-wise operation). -/
def ExactKmerCounter.add (c o : ExactKmerCounter) : PyResult ExactKmerCounter :=
  if c.k ≠ o.k ∨ c.alphabet ≠ o.alphabet
  then .raised (.valueError "Cannot add KmerCounters unless k and alphabet are equal.")
  else .returned ⟨c.k, c.alphabet, List.zipWith (fun a b => wrap64 (a + b)) c.array o.array⟩

/-- `ExactKmerCounter.__sub__` (lines 188-196): element-wise subtraction
followed by `clip(min=0)`, i.e. each slot becomes `max (a - b) 0`. -/
def ExactKmerCounter.sub (c o : ExactKmerCounter) : PyResult ExactKmerCounter :=
  if c.k ≠ o.k ∨ c.alphabet ≠ o.alphabet
  then .raised (.valueError "Cannot add KmerCounters unless k and alphabet are equal.")
  else .returned ⟨c.k, c.alphabet, List.zipWith (fun a b => max (a - b) 0) c.array o.array⟩

/-! ## CountMinKmerCounter (`pymer/__init__.py` lines 232-310)

Cells are unsigned integers of `width` bits (default `np.uint16`, width
16); numpy wraps on cast/overflow, modelled by taking residues modulo
`2 ^ width` exactly where the numpy operations cast.  The external
`xxh64(struct.pack(..., item), seed=tab)` digest is an explicit function
parameter `hash : Nat → Nat → Nat` applied to the seed and the item. -/

/-- Seed-keyed hash family standing for `xxh64`. -/
abbrev HashFun := Nat → Nat → Nat

structure CountMinKmerCounter where
  k : Nat
  alphabet : List Char
  num_tables : Nat
  table_size : Nat
  width : Nat
  array : List (List Nat)
deriving DecidableEq

/-- `np.iinfo(dtype).max` for an unsigned dtype of the given bit width. -/
def dtypemax (w : Nat) : Nat := 2 ^ w - 1

/-- The column addressed in table row `tab` for an identifier:
`xxh64(struct.pack(item), seed=tab).intdigest() % table_size`. -/
def cmIdx (hash : HashFun) (c : CountMinKmerCounter) (tab : Nat) (item : Nat) : Nat :=
  hash tab item % c.table_size

/-- Read the cell `array[tab, idx]` (0 outside a well-formed shape). -/
def cmCell (c : CountMinKmerCounter) (tab idx : Nat) : Nat :=
  (c.array.getD tab []).getD idx 0

/-- Core of `CountMinKmerCounter.__getitem__` (lines 288-299) on an
integer identifier: `mx = 0; for tab: mx = max(mx, array[tab, idx])`.
The combiner the code uses is the MAXIMUM across table rows. -/
def CountMinKmerCounter.estimateId (hash : HashFun) (c : CountMinKmerCounter)
    (item : Nat) : Nat :=
  List.foldl (fun mx tab => max mx (cmCell c tab (cmIdx hash c tab item))) 0
    (List.range c.num_tables)

/-- The combiner the specification prescribes (section 4.3): the MINIMUM
across all table rows of the cell at the hashed column.  Defined from the
words of the spec, for comparison with the `estimateId` the code
implements. -/
def estimate_spec (hash : HashFun) (c : CountMinKmerCounter) (item : Nat) : Nat :=
  match (List.range c.num_tables).map (fun tab => cmCell c tab (cmIdx hash c tab item)) with
  | [] => 0
  | x :: xs => xs.foldl min x

/-- `CountMinKmerCounter.__getitem__` (lines 288-299), string dispatch
included; like the exact counter it returns (not raises) the ValueError
on a wrong-length string, and `next` on an empty id iterator raises
StopIteration. -/
def CountMinKmerCounter.getitem (hash : HashFun) (c : CountMinKmerCounter)
    (q : KmerQuery) : PyResult QueryVal :=
  match q with
  | .str s =>
      if s.length ≠ c.k then .returned (.excObject (.valueError lengthMsg))
      else
        match iter_kmers c.alphabet s c.k with
        | [] => .raised .stopIteration
        | h :: _ => .returned (.count (Int.ofNat (c.estimateId hash h)))
  | .ident n => .returned (.count (Int.ofNat (c.estimateId hash n)))

/-- Write value `v` into cell `(i, j)` of a 2-D array (no-op out of
range, matching in-range use on well-formed shapes). -/
def set2d (arr : List (List Nat)) (i j : Nat) (v : Nat) : List (List Nat) :=
  arr.set i ((arr.getD i []).set j v)

/-- Core of `CountMinKmerCounter.__setitem__` (lines 301-310) on an
integer identifier: writes `val` (cast into the unsigned dtype, hence the
residue modulo `2 ^ width`) into the addressed cell of EVERY table row. -/
def cmWriteAll (hash : HashFun) (c : CountMinKmerCounter) (item : Nat) (val : Nat) :
    CountMinKmerCounter :=
  ⟨c.k, c.alphabet, c.num_tables, c.table_size, c.width,
    List.foldl (fun arr tab => set2d arr tab (cmIdx hash c tab item) (val % 2 ^ c.width))
      c.array (List.range c.num_tables)⟩

/-- `CountMinKmerCounter.__setitem__` (lines 301-310) with string
dispatch: wrong length returns the ValueError object (array untouched);
a correct-length string reaches `kmer_hash(item)`, a name not bound in
`pymer/__init__.py`, hence NameError. -/
def CountMinKmerCounter.setitem (hash : HashFun) (c : CountMinKmerCounter)
    (q : KmerQuery) (val : Nat) : PyResult CountMinKmerCounter :=
  match q with
  | .str s =>
      if s.length ≠ c.k then .returned c
      else .raised (.nameError "kmer_hash")
  | .ident n => .returned (cmWriteAll hash c n val)

/-- One step of `consume` for the sketch: `self[kmer] += 1` desugars to a
read through `__getitem__` (max across rows) plus one — computed in the
unsigned dtype, so it wraps modulo `2 ^ width` past the maximum — written
back through `__setitem__` into every row. -/
def cmIncrStep (hash : HashFun) (c : CountMinKmerCounter) (item : Nat) :
    CountMinKmerCounter :=
  cmWriteAll hash c item (c.estimateId hash item + 1)

/-- One step of `unconsume` for the sketch:
`self[kmer] = max(self[kmer] - 1, 0)`.  When the read value is 0 it is
the Python int 0 (the fold seed), so `0 - 1 = -1` is clamped by `max` to
0; when it is a positive unsigned cell, `v - 1` does not wrap.  Both
cases coincide with truncated subtraction on `Nat`. -/
def cmDecrStep (hash : HashFun) (c : CountMinKmerCounter) (item : Nat) :
    CountMinKmerCounter :=
  cmWriteAll hash c item (c.estimateId hash item - 1)

/-- `BaseCounter.consume` specialised to the sketch. -/
def CountMinKmerCounter.consume (hash : HashFun) (c : CountMinKmerCounter)
    (s : List Char) : CountMinKmerCounter :=
  List.foldl (fun acc id => cmIncrStep hash acc id) c (iter_kmers c.alphabet s c.k)

/-- `BaseCounter.unconsume` specialised to the sketch. -/
def CountMinKmerCounter.unconsume (hash : HashFun) (c : CountMinKmerCounter)
    (s : List Char) : CountMinKmerCounter :=
  List.foldl (fun acc id => cmDecrStep hash acc id) c (iter_kmers c.alphabet s c.k)

/-- Element-wise combination of two 2-D arrays. -/
def zip2d (f : Nat → Nat → Nat) (x y : List (List Nat)) : List (List Nat) :=
  List.zipWith (fun r s => List.zipWith f r s) x y

/-- `CountMinKmerCounter.__add__` (lines 260-271): shape and k must
match; per cell, positions where `dtypemax - a < b` would overflow are
forced to `dtypemax` after the (wrapping) addition. -/
def CountMinKmerCounter.add (c o : CountMinKmerCounter) : PyResult CountMinKmerCounter :=
  if c.num_tables ≠ o.num_tables ∨ c.table_size ≠ o.table_size ∨ c.k ≠ o.k
  then .raised (.valueError "Cannot add counters unless k and sketch shape are equal.")
  else .returned ⟨c.k, c.alphabet, c.num_tables, c.table_size, c.width,
    zip2d (fun a b => if dtypemax c.width - a < b then dtypemax c.width
                      else (a + b) % 2 ^ c.width) c.array o.array⟩

/-- `CountMinKmerCounter.__sub__` (lines 273-283): positions where
`a < b` are forced to 0 after the (wrapping) subtraction; otherwise the
difference is exact. -/
def CountMinKmerCounter.sub (c o : CountMinKmerCounter) : PyResult CountMinKmerCounter :=
  if c.num_tables ≠ o.num_tables ∨ c.table_size ≠ o.table_size ∨ c.k ≠ o.k
  then .raised (.valueError "Cannot add counters unless k and sketch shape are equal.")
  else .returned ⟨c.k, c.alphabet, c.num_tables, c.table_size, c.width,
    zip2d (fun a b => if a < b then 0 else a - b) c.array o.array⟩

/-! ## Serialization

Two serializers coexist in the source.  `pymer/__init__.py` (lines
117-150) dumps a YAML mapping with the array packed by bloscpack and
checks `fileversion < file_version` (its `file_version` is 1).
`pymer/base.py` (lines 41-80) stores one dataset per k in an HDF5 file,
tracks a top-level `klengths` registry, and checks
`fileversion != file_version` (its `file_version` is 2).  Both packers
are opaque codecs, so the array payload round-trips unchanged; it is
modelled as an `NDArray` (shape and dtype travel with a numpy array). -/

/-- An ndarray payload: exact counters persist a 1-D int array, sketches
a 2-D unsigned array of the given bit width. -/
inductive NDArray where
  | int1d (xs : List Int)
  | uint2d (width : Nat) (xs : List (List Nat))
deriving DecidableEq

/-- `BaseCounter.file_version` in `pymer/__init__.py` (line 105). -/
def init_file_version : Nat := 1

/-- `BaseCounter.file_version` in `pymer/base.py` (line 18). -/
def base_file_version : Nat := 2

/-- The YAML object written by `BaseCounter.write` in
`pymer/__init__.py` (lines 137-150). -/
structure YamlObj where
  k : Nat
  alphabet : List Char
  arrayData : NDArray
  className : String
  fileversion : Nat
deriving DecidableEq

/-- `ExactKmerCounter.write` through the YAML serializer. -/
def ExactKmerCounter.writeYaml (c : ExactKmerCounter) : YamlObj :=
  ⟨c.k, c.alphabet, .int1d c.array, "ExactKmerCounter", init_file_version⟩

/-- `BaseCounter.read` in `pymer/__init__.py` (lines 117-134) with
`cls = ExactKmerCounter`: checks the stored class name, then rejects the
file only when `obj.fileversion < cls.file_version` — a NEWER stored
fileversion passes the check.  The final branch (a non-1-D payload under
the exact class tag) is unreachable from this writer. -/
def exactReadYaml (obj : YamlObj) : PyResult ExactKmerCounter :=
  if obj.className ≠ "ExactKmerCounter"
  then .raised (.valueError "Class mismatch")
  else if obj.fileversion < init_file_version
  then .raised (.valueError "File format version mismatch")
  else
    match obj.arrayData with
    | .int1d xs => .returned ⟨obj.k, obj.alphabet, xs⟩
    | .uint2d _ _ => .raised .indexError

/-- One dataset of the HDF5 container (attributes plus payload). -/
structure H5Dataset where
  className : String
  fileversion : Nat
  alphabet : List Char
  arrayData : NDArray
deriving DecidableEq

/-- The HDF5 container: the top-level `klengths` registry plus the
datasets keyed by their per-k array path. -/
structure H5File where
  klengths : List Nat
  datasets : List (Nat × H5Dataset)
deriving DecidableEq

/-- A fresh destination file. -/
def emptyH5 : H5File := ⟨[], []⟩

/-- Dataset lookup `h5f[arraypath]`, keyed by k. -/
def lookupDataset (f : H5File) (k : Nat) : Option H5Dataset :=
  (f.datasets.find? (fun kv => kv.fst == k)).map Prod.snd

/-- `BaseCounter.write` in `pymer/base.py` (lines 63-80):
`create_dataset` fails if the per-k path already exists; otherwise the
dataset is stored with its attributes and k is appended to `klengths`. -/
def h5Write (f : H5File) (k : Nat) (className : String) (alphabet : List Char)
    (arrayData : NDArray) : PyResult H5File :=
  if (lookupDataset f k).isSome then .raised (.valueError "dataset already exists")
  else .returned ⟨f.klengths ++ [k],
    f.datasets ++ [(k, ⟨className, base_file_version, alphabet, arrayData⟩)]⟩

/-- The checking prefix of `BaseCounter.read` in `pymer/base.py` (lines
45-58): requested k must be in `klengths`, the stored class name must
equal the reading class, and the stored `fileversion` must EQUAL the
supported `file_version` (a mismatch in either direction raises). -/
def h5ReadChecks (f : H5File) (k : Nat) (clsName : String) : PyResult H5Dataset :=
  if f.klengths.contains k then
    match lookupDataset f k with
    | none => .raised .indexError
    | some ds =>
        if ds.className ≠ clsName then .raised (.valueError "Class mismatch")
        else if ds.fileversion ≠ base_file_version
        then .raised (.valueError "File format version mismatch")
        else .returned ds
  else .raised (.valueError "Kmer length not in file")

/-- `BaseCounter.read` with `cls = ExactKmerCounter`: after the checks,
`cls(kmersize, alphabet=alphabet, array=array)`. -/
def exactReadH5 (f : H5File) (k : Nat) : PyResult ExactKmerCounter :=
  match h5ReadChecks f k "ExactKmerCounter" with
  | .raised e => .raised e
  | .returned ds =>
      match ds.arrayData with
      | .int1d xs => .returned ⟨k, ds.alphabet, xs⟩
      | .uint2d _ _ => .raised .indexError

/-- `ExactKmerCounter.write` through the HDF5 serializer. -/
def ExactKmerCounter.writeH5 (c : ExactKmerCounter) (f : H5File) : PyResult H5File :=
  h5Write f c.k "ExactKmerCounter" c.alphabet (.int1d c.array)

/-- Default `sketchshape` of `CountMinKmerCounter.__init__` (line 250). -/
def defaultSketchShape : Nat × Nat := (4, 100000)

/-- `BaseCounter.read` with `cls = CountMinKmerCounter`: the
reconstruction call `cls(kmersize, alphabet=alphabet, array=array)`
leaves `sketchshape` at its DEFAULT `(4, 100000)`
(`CountMinKmerCounter.__init__`, lines 250-258), so `num_tables` and
`table_size` of the reconstructed counter come from the default, not
from the stored array shape. -/
def sketchReadH5 (f : H5File) (k : Nat) : PyResult CountMinKmerCounter :=
  match h5ReadChecks f k "CountMinKmerCounter" with
  | .raised e => .raised e
  | .returned ds =>
      match ds.arrayData with
      | .uint2d w xs =>
          .returned ⟨k, ds.alphabet, defaultSketchShape.fst, defaultSketchShape.snd, w, xs⟩
      | .int1d _ => .raised .indexError

/-- `CountMinKmerCounter.write` through the HDF5 serializer. -/
def CountMinKmerCounter.writeH5 (c : CountMinKmerCounter) (f : H5File) : PyResult H5File :=
  h5Write f c.k "CountMinKmerCounter" c.alphabet (.uint2d c.width c.array)

/-- Write an exact counter to a fresh file and read it back with the
same k. -/
def exactRoundtrip (c : ExactKmerCounter) : PyResult ExactKmerCounter :=
  match c.writeH5 emptyH5 with
  | .raised e => .raised e
  | .returned f => exactReadH5 f c.k

/-- Write a sketch to a fresh file and read it back with the same k. -/
def sketchRoundtrip (s : CountMinKmerCounter) : PyResult CountMinKmerCounter :=
  match s.writeH5 emptyH5 with
  | .raised e => .raised e
  | .returned f => sketchReadH5 f s.k

/-! ## State invariants (spec section 3) -/

/-- Exact counter invariant: all slots are non-negative. -/
def exactInv (c : ExactKmerCounter) : Prop := ∀ v ∈ c.array, 0 ≤ v

/-- Sketch invariant: all cells are at most the dtype maximum (cells are
`Nat`, so non-negativity is intrinsic to the model, as it is to the
unsigned dtype). -/
def cmInv (c : CountMinKmerCounter) : Prop :=
  ∀ r ∈ c.array, ∀ v ∈ r, v ≤ dtypemax c.width

instance : DecidablePred exactInv :=
  fun c => List.decidableBAll (fun v => 0 ≤ v) c.array

instance : DecidablePred cmInv :=
  fun c => List.decidableBAll (fun r => ∀ v ∈ r, v ≤ dtypemax c.width) c.array

/-! ## Concrete fixtures -/

/-- `ExactKmerCounter(2)`. -/
def exact2DNA : ExactKmerCounter := mkExact 2 alphaDNA

/-- A concrete stand-in for the xxh64 family (any function works: the
claims settled on fixtures below use `table_size = 1` or pure metadata,
so the digests are irrelevant). -/
def linHash : HashFun := fun seed item => seed * 1009 + item

/-- A sketch with two rows of one column: every identifier addresses
column 0 of both rows, whose cells hold 3 and 5. -/
def twoRowSketch : CountMinKmerCounter := ⟨2, alphaDNA, 2, 1, 16, [[3], [5]]⟩

/-- A 1-row, 1-column sketch whose only cell sits at the uint16
maximum. -/
def satSketch : CountMinKmerCounter := ⟨2, alphaDNA, 1, 1, 16, [[65535]]⟩

/-- A sketch with the non-default shape (2, 3). -/
def smallSketch : CountMinKmerCounter := ⟨2, alphaDNA, 2, 3, 16, [[1, 2, 3], [4, 5, 6]]⟩

/-! ## Claim C1 -/

/-- Claim C1: the claim states that `estimate` returns the MINIMUM
across table rows.  The code (`CountMinKmerCounter.__getitem__`, lines
288-299) folds `mx = max(mx, cell)` over the rows: on a sketch whose two
addressed cells hold 3 and 5, both the identifier form and the string
form of the query return 5 — the maximum — while the combiner the spec
prescribes yields 3.  `CountMinKmerCounter` violates the claim. -/
theorem c1_estimate_combiner_is_max :
    CountMinKmerCounter.getitem linHash twoRowSketch (.ident 7) = .returned (.count 5) ∧
    CountMinKmerCounter.getitem linHash twoRowSketch (.str ['A', 'T']) =
      .returned (.count 5) ∧
    estimate_spec linHash twoRowSketch 7 = 3 := by
  decide

/-! ## Claim C2 -/

/-- Claim C2: the claim states that an increment of a cell already at
the dtype maximum leaves it at the maximum.  In the code the consume
path `self[kmer] += 1` reads through `__getitem__`, adds 1 in the
unsigned dtype, and writes back through `__setitem__`; at the uint16
maximum 65535 the addition wraps and the cell is written to 0.
Consuming one k-mer on a sketch whose only cell is saturated drives that
cell to 0, violating the claim. -/
theorem c2_increment_at_max_wraps_to_zero :
    satSketch.array = [[65535]] ∧
    dtypemax satSketch.width = 65535 ∧
    (CountMinKmerCounter.consume linHash satSketch ['A', 'A']).array = [[0]] := by
  decide

/-! ## Claim C3 -/

/-- Claim C3: the claim states that a wrong-length string query RAISES a
length-mismatch error (and leaves the array unchanged).  The code
(`__getitem__` lines 201-207, `__setitem__` lines 209-215, and the same
pattern in `CountMinKmerCounter`) says `return ValueError(msg)`, not
`raise`: the get returns the exception object as its result and the set
returns with the array untouched, but no exception is raised at the call
site. -/
theorem c3_wrong_length_returns_error_object :
    exact2DNA.getitem (.str ['A', 'C', 'G']) =
      .returned (.excObject (.valueError lengthMsg)) ∧
    exact2DNA.setitem (.str ['A', 'C', 'G']) 5 = .returned exact2DNA ∧
    CountMinKmerCounter.getitem linHash twoRowSketch (.str ['A']) =
      .returned (.excObject (.valueError lengthMsg)) ∧
    CountMinKmerCounter.setitem linHash twoRowSketch (.str ['A']) 5 =
      .returned twoRowSketch := by
  decide

/-! ## Claim C4 -/

/-- Claim C4: the claim states that `set` with a k-length string routes
the string through the codec and stores the value at the encoded slot.
In `ExactKmerCounter.__setitem__` (line 214) the string branch evaluates
`kmer_hash(item)`, but `pymer/__init__.py` imports only `iter_kmers` and
`hash_to_kmer` from `._hash` and defines no `kmer_hash`, so the call
raises NameError and nothing is ever stored: `set('AA', 5)` on
`ExactKmerCounter(2)` fails instead of making `get('AA')` return 5. -/
theorem c4_string_set_raises_nameerror :
    exact2DNA.setitem (.str ['A', 'A']) 5 = .raised (.nameError "kmer_hash") ∧
    CountMinKmerCounter.setitem linHash twoRowSketch (.str ['A', 'T']) 5 =
      .raised (.nameError "kmer_hash") := by
  decide

/-! ## Claim C5 -/

/-- Claim C5 (counterexample): the claim states that write-then-read
reconstructs a counter equal to the original, for sketches including the
original `num_tables`/`table_size` geometry.  `BaseCounter.read`
reconstructs with `cls(kmersize, alphabet=alphabet, array=array)`, which
leaves `sketchshape` at its default `(4, 100000)`: a sketch of shape
(2, 3) round-trips into a counter with `num_tables = 4` and
`table_size = 100000`, not equal to the original. -/
theorem c5_sketch_roundtrip_loses_geometry :
    sketchRoundtrip smallSketch ≠ .returned smallSketch ∧
    sketchRoundtrip smallSketch =
      .returned ⟨2, alphaDNA, 4, 100000, 16, [[1, 2, 3], [4, 5, 6]]⟩ ∧
    smallSketch.num_tables = 2 ∧ smallSketch.table_size = 3 := by
  decide

/-! ## Claim C6 -/

/-- A persisted YAML object tagged with fileversion 2, newer than the
reader's supported `file_version = 1`. -/
def newerYamlObj : YamlObj := ⟨1, alphaDNA, .int1d [0, 0, 0, 0], "ExactKmerCounter", 2⟩

/-- Claim C6 (counterexample): the claim states that read rejects a
stored `fileversion` differing from the supported one in either
direction, in particular a newer one.  The reader in `pymer/__init__.py`
(line 128) checks only `obj['fileversion'] < cls.file_version`: an
object with fileversion 2 against the supported version 1 is accepted
and a counter is reconstructed with no error. -/
theorem c6_yaml_reader_accepts_newer_version :
    newerYamlObj.fileversion ≠ init_file_version ∧
    exactReadYaml newerYamlObj = .returned ⟨1, alphaDNA, [0, 0, 0, 0]⟩ := by
  decide

/-! ## Claim C7 -/

/-- The identifier of a window over the alphabet is below
`|alphabet| ^ length`. -/
theorem kmer_hash_lt (alphabet : List Char) (w : List Char)
    (hw : ∀ c ∈ w, c ∈ alphabet) :
    kmer_hash alphabet w < alphabet.length ^ w.length := by
  induction w with
  | nil => simp [kmer_hash]
  | cons c rest ih =>
      have hc : alphabet.indexOf c < alphabet.length :=
        List.indexOf_lt_length.2 (hw c (List.mem_cons_self c rest))
      have hr : kmer_hash alphabet rest < alphabet.length ^ rest.length :=
        ih (fun x hx => hw x (List.mem_cons_of_mem c hx))
      calc kmer_hash alphabet (c :: rest)
          = alphabet.indexOf c * alphabet.length ^ rest.length + kmer_hash alphabet rest := rfl
        _ < alphabet.indexOf c * alphabet.length ^ rest.length + alphabet.length ^ rest.length := by
              omega
        _ = (alphabet.indexOf c + 1) * alphabet.length ^ rest.length := by ring
        _ ≤ alphabet.length * alphabet.length ^ rest.length :=
              Nat.mul_le_mul hc (Nat.le_refl _)
        _ = alphabet.length ^ (c :: rest).length := by
              rw [List.length_cons, pow_succ]; ring

/-- Decoding always produces a string of length k. -/
theorem hash_to_kmer_length (alphabet : List Char) (h k : Nat) :
    (hash_to_kmer alphabet h k).length = k := by
  induction k generalizing h with
  | zero => rfl
  | succ n ih => simp [hash_to_kmer, ih]

/-- For an identifier in range, every decoded symbol belongs to the
alphabet. -/
theorem hash_to_kmer_mem (alphabet : List Char) (hpos : 0 < alphabet.length)
    (h k : Nat) (hh : h < alphabet.length ^ k) :
    ∀ c ∈ hash_to_kmer alphabet h k, c ∈ alphabet := by
  induction k generalizing h with
  | zero => simp [hash_to_kmer]
  | succ n ih =>
      have hLn : 0 < alphabet.length ^ n := pow_pos hpos n
      have hdig : h / alphabet.length ^ n < alphabet.length := by
        rw [Nat.div_lt_iff_lt_mul hLn]
        calc h < alphabet.length ^ (n + 1) := hh
          _ = alphabet.length * alphabet.length ^ n := by rw [pow_succ]; ring
      intro c hc
      rcases List.mem_cons.1 hc with hhead | htail
      · subst hhead
        rw [List.getD_eq_getElem _ _ hdig]
        exact List.getElem_mem hdig
      · exact ih (h % alphabet.length ^ n) (Nat.mod_lt _ hLn) c htail

/-- Encode after decode is the identity on `[0, |alphabet| ^ k)` for an
alphabet of distinct symbols. -/
theorem kmer_hash_hash_to_kmer (alphabet : List Char) (hnd : alphabet.Nodup)
    (hpos : 0 < alphabet.length) (k : Nat) :
    ∀ h, h < alphabet.length ^ k →
      kmer_hash alphabet (hash_to_kmer alphabet h k) = h := by
  induction k with
  | zero =>
      intro h hh
      have : h = 0 := by simpa using hh
      subst this
      rfl
  | succ n ih =>
      intro h hh
      have hLn : 0 < alphabet.length ^ n := pow_pos hpos n
      have hdig : h / alphabet.length ^ n < alphabet.length := by
        rw [Nat.div_lt_iff_lt_mul hLn]
        calc h < alphabet.length ^ (n + 1) := hh
          _ = alphabet.length * alphabet.length ^ n := by rw [pow_succ]; ring
      have hmod : h % alphabet.length ^ n < alphabet.length ^ n := Nat.mod_lt _ hLn
      show alphabet.indexOf (alphabet.getD (h / alphabet.length ^ n) 'X')
            * alphabet.length ^ (hash_to_kmer alphabet (h % alphabet.length ^ n) n).length
          + kmer_hash alphabet (hash_to_kmer alphabet (h % alphabet.length ^ n) n) = h
      rw [hash_to_kmer_length, ih _ hmod, List.getD_eq_getElem _ _ hdig,
        List.indexOf_getElem hnd _ hdig, Nat.mul_comm, Nat.div_add_mod]

/-- Decode after encode is the identity on windows fully composed of
alphabet symbols. -/
theorem hash_to_kmer_kmer_hash (alphabet : List Char) (w : List Char)
    (hw : ∀ c ∈ w, c ∈ alphabet) :
    hash_to_kmer alphabet (kmer_hash alphabet w) w.length = w := by
  induction w with
  | nil => rfl
  | cons c rest ih =>
      have hc : c ∈ alphabet := hw c (List.mem_cons_self c rest)
      have hrest : ∀ x ∈ rest, x ∈ alphabet := fun x hx => hw x (List.mem_cons_of_mem c hx)
      have hcl : alphabet.indexOf c < alphabet.length := List.indexOf_lt_length.2 hc
      have he : kmer_hash alphabet rest < alphabet.length ^ rest.length :=
        kmer_hash_lt alphabet rest hrest
      have hLr : 0 < alphabet.length ^ rest.length :=
        pow_pos (Nat.lt_of_le_of_lt (Nat.zero_le _) hcl) _
      have hdiv : (alphabet.indexOf c * alphabet.length ^ rest.length + kmer_hash alphabet rest)
            / alphabet.length ^ rest.length = alphabet.indexOf c := by
        rw [Nat.add_comm, Nat.add_mul_div_right _ _ hLr, Nat.div_eq_of_lt he, Nat.zero_add]
      have hmod : (alphabet.indexOf c * alphabet.length ^ rest.length + kmer_hash alphabet rest)
            % alphabet.length ^ rest.length = kmer_hash alphabet rest := by
        rw [Nat.add_comm, Nat.add_mul_mod_self_right, Nat.mod_eq_of_lt he]
      show hash_to_kmer alphabet
          (alphabet.indexOf c * alphabet.length ^ rest.length + kmer_hash alphabet rest)
          (rest.length + 1) = c :: rest
      simp only [hash_to_kmer, hdiv, hmod, ih hrest]
      rw [List.getD_eq_getElem _ _ hcl, List.getElem_indexOf hcl]

/-- There are `length s + 1 - k` sliding windows. -/
theorem windows_length (s : List Char) (k : Nat) :
    (windows s k).length = s.length + 1 - k := by
  simp [windows]

/-- Every sliding window has length k. -/
theorem mem_windows_length (s : List Char) (k : Nat) (w : List Char)
    (hw : w ∈ windows s k) : w.length = k := by
  simp only [windows, List.mem_map, List.mem_range] at hw
  obtain ⟨i, hi, rfl⟩ := hw
  simp only [List.length_take, List.length_drop]
  omega

/-- A valid window consists of alphabet symbols. -/
theorem validWindow_mem (alphabet : List Char) (w : List Char)
    (hv : validWindow alphabet w = true) : ∀ c ∈ w, c ∈ alphabet := by
  intro c hc
  have := List.all_eq_true.1 hv c hc
  simpa using this

/-! ## Claim C8 -/

/-- Claim C8 (spec-modelled codec): for an alphabet of at least two
distinct symbols and any identifier `i` in `[0, |alphabet| ^ k)`,
`hash_to_kmer` produces a k-length string over the alphabet with
`kmer_hash (hash_to_kmer i k) = i`; it is the UNIQUE such string because
decode-after-encode is also the identity on valid k-length windows; and
decoding the j-th identifier produced by `iter_kmers` reproduces the
j-th valid window of the sequence exactly. -/
theorem c8_encode_decode_bijection (alphabet : List Char) (hnd : alphabet.Nodup)
    (h2 : 2 ≤ alphabet.length) (k i : Nat) (hi : i < alphabet.length ^ k)
    (s : List Char) (j : Nat) (hj : j < (iter_kmers alphabet s k).length) :
    (hash_to_kmer alphabet i k).length = k ∧
    (∀ c ∈ hash_to_kmer alphabet i k, c ∈ alphabet) ∧
    kmer_hash alphabet (hash_to_kmer alphabet i k) = i ∧
    (∀ w, w.length = k → (∀ c ∈ w, c ∈ alphabet) →
      hash_to_kmer alphabet (kmer_hash alphabet w) k = w) ∧
    hash_to_kmer alphabet ((iter_kmers alphabet s k).getD j 0) k =
      ((windows s k).filter (validWindow alphabet)).getD j [] := by
  have hpos : 0 < alphabet.length := Nat.lt_of_lt_of_le (by omega) h2
  refine ⟨hash_to_kmer_length alphabet i k,
    hash_to_kmer_mem alphabet hpos i k hi,
    kmer_hash_hash_to_kmer alphabet hnd hpos k i hi,
    fun w hwk hw => hwk ▸ hash_to_kmer_kmer_hash alphabet w hw, ?_⟩
  have hjf : j < ((windows s k).filter (validWindow alphabet)).length := by
    simpa [iter_kmers] using hj
  have hmap : (iter_kmers alphabet s k).getD j 0 =
      kmer_hash alphabet (((windows s k).filter (validWindow alphabet)).getD j []) := by
    rw [iter_kmers, List.getD_eq_getElem _ _ (by simpa [iter_kmers] using hj),
      List.getElem_map, List.getD_eq_getElem _ _ hjf]
  rw [hmap]
  have hwmem : ((windows s k).filter (validWindow alphabet)).getD j [] ∈
      (windows s k).filter (validWindow alphabet) := by
    rw [List.getD_eq_getElem _ _ hjf]
    exact List.getElem_mem hjf
  have hwin : ((windows s k).filter (validWindow alphabet)).getD j [] ∈ windows s k :=
    List.mem_of_mem_filter hwmem
  have hval : validWindow alphabet (((windows s k).filter (validWindow alphabet)).getD j [])
      = true := List.of_mem_filter hwmem
  have hlen : (((windows s k).filter (validWindow alphabet)).getD j []).length = k :=
    mem_windows_length s k _ hwin
  have hres := hash_to_kmer_kmer_hash alphabet _ (validWindow_mem alphabet _ hval)
  rw [hlen] at hres
  exact hres

/-- Witness for C8 at a concrete input: alphabet ACGT, k = 2, i = 7,
sequence ACGT, j = 0. -/
theorem c8_encode_decode_bijection_witness :
    (hash_to_kmer alphaDNA 7 2).length = 2 ∧
    (∀ c ∈ hash_to_kmer alphaDNA 7 2, c ∈ alphaDNA) ∧
    kmer_hash alphaDNA (hash_to_kmer alphaDNA 7 2) = 7 ∧
    (∀ w, w.length = 2 → (∀ c ∈ w, c ∈ alphaDNA) →
      hash_to_kmer alphaDNA (kmer_hash alphaDNA w) 2 = w) ∧
    hash_to_kmer alphaDNA ((iter_kmers alphaDNA ['A', 'C', 'G', 'T'] 2).getD 0 0) 2 =
      ((windows ['A', 'C', 'G', 'T'] 2).filter (validWindow alphaDNA)).getD 0 [] :=
  c8_encode_decode_bijection alphaDNA (by decide) (by decide) 2 7 (by decide)
    ['A', 'C', 'G', 'T'] 0 (by decide)

/-! ## Claim C9 -/

/-- Claim C9 (spec-modelled codec): `iter_kmers` yields an identifier
only for windows composed entirely of alphabet symbols (each produced
identifier is the encoding of some valid window, and the number of
identifiers equals the number of valid windows); consequently, when the
sequence holds a symbol outside the alphabet at some position, strictly
fewer than `length s - k + 1` identifiers are produced. -/
theorem c9_invalid_window_skipped (alphabet : List Char) (s : List Char) (k p : Nat)
    (hk : 1 ≤ k) (hks : k ≤ s.length) (hp : p < s.length)
    (hinv : s.getD p 'X' ∉ alphabet) :
    (∀ id ∈ iter_kmers alphabet s k, ∃ w ∈ windows s k,
      validWindow alphabet w = true ∧ id = kmer_hash alphabet w) ∧
    (iter_kmers alphabet s k).length =
      ((windows s k).filter (validWindow alphabet)).length ∧
    (iter_kmers alphabet s k).length < s.length - k + 1 := by
  refine ⟨?_, by simp [iter_kmers], ?_⟩
  · intro id hid
    rw [iter_kmers, List.mem_map] at hid
    obtain ⟨w, hwmem, rfl⟩ := hid
    exact ⟨w, List.mem_of_mem_filter hwmem, List.of_mem_filter hwmem, rfl⟩
  · have hlen : (iter_kmers alphabet s k).length =
        ((windows s k).filter (validWindow alphabet)).length := by simp [iter_kmers]
    rw [hlen]
    have hwl : (windows s k).length = s.length - k + 1 := by
      rw [windows_length]; omega
    rw [← hwl]
    apply List.length_filter_lt_length_iff_exists.2
    refine ⟨(s.drop (min p (s.length - k))).take k, ?_, ?_⟩
    · simp only [windows, List.mem_map, List.mem_range]
      exact ⟨min p (s.length - k), by omega, rfl⟩
    · intro hvalid
      apply hinv
      apply validWindow_mem alphabet _ hvalid
      have h1 : p - min p (s.length - k) < k := by omega
      have heq : min p (s.length - k) + (p - min p (s.length - k)) = p := by omega
      have hmem : ((s.drop (min p (s.length - k))).take k)[p - min p (s.length - k)]? =
          some (s.getD p 'X') := by
        rw [List.getElem?_take_of_lt h1, List.getElem?_drop, heq,
          List.getD_eq_getElem _ _ hp, List.getElem?_eq_getElem hp]
      exact List.get?_mem (by rw [List.get?_eq_getElem?]; exact hmem)

/-- Witness for C9 at a concrete input: alphabet ACGT, sequence ACNGT
(invalid N at position 2), k = 2: two identifiers instead of four. -/
theorem c9_invalid_window_skipped_witness :
    (∀ id ∈ iter_kmers alphaDNA ['A', 'C', 'N', 'G', 'T'] 2,
      ∃ w ∈ windows ['A', 'C', 'N', 'G', 'T'] 2,
        validWindow alphaDNA w = true ∧ id = kmer_hash alphaDNA w) ∧
    (iter_kmers alphaDNA ['A', 'C', 'N', 'G', 'T'] 2).length =
      ((windows ['A', 'C', 'N', 'G', 'T'] 2).filter (validWindow alphaDNA)).length ∧
    (iter_kmers alphaDNA ['A', 'C', 'N', 'G', 'T'] 2).length <
      (['A', 'C', 'N', 'G', 'T'] : List Char).length - 2 + 1 :=
  c9_invalid_window_skipped alphaDNA ['A', 'C', 'N', 'G', 'T'] 2 2
    (by decide) (by decide) (by decide) (by decide)

/-! ## Claim C10 -/

/-- The all-zero exact counter of the same geometry. -/
def exactZeroLike (c : ExactKmerCounter) : ExactKmerCounter :=
  ⟨c.k, c.alphabet, List.replicate c.array.length 0⟩

/-- The all-zero sketch of the same geometry. -/
def cmZeroLike (s : CountMinKmerCounter) : CountMinKmerCounter :=
  ⟨s.k, s.alphabet, s.num_tables, s.table_size, s.width,
    s.array.map (fun r => List.replicate r.length 0)⟩

theorem zipWith_sub_self_int (l : List Int) :
    List.zipWith (fun a b => max (a - b) 0) l l = List.replicate l.length 0 := by
  induction l with
  | nil => rfl
  | cons x t ih => simp [List.replicate_succ, ih]

theorem zipWith_zero_sub_int (l : List Int) (h : ∀ v ∈ l, 0 ≤ v) :
    List.zipWith (fun a b => max (a - b) 0) (List.replicate l.length 0) l =
      List.replicate l.length 0 := by
  induction l with
  | nil => rfl
  | cons x t ih =>
      have hx : (0 : Int) ≤ x := h x (List.mem_cons_self x t)
      simp [List.replicate_succ, ih (fun v hv => h v (List.mem_cons_of_mem x hv)),
        max_eq_right (by omega : (0 : Int) - x ≤ 0), hx]

theorem zipWith_sub_self_nat (l : List Nat) :
    List.zipWith (fun a b => if a < b then 0 else a - b) l l =
      List.replicate l.length 0 := by
  induction l with
  | nil => rfl
  | cons x t ih => simp [List.replicate_succ, ih]

theorem zipWith_zero_sub_nat (l : List Nat) :
    List.zipWith (fun a b => if a < b then 0 else a - b)
      (List.replicate l.length 0) l = List.replicate l.length 0 := by
  induction l with
  | nil => rfl
  | cons x t ih => simp [List.replicate_succ, ih, Nat.zero_sub]

theorem zip2d_sub_self (xs : List (List Nat)) :
    zip2d (fun a b => if a < b then 0 else a - b) xs xs =
      xs.map (fun r => List.replicate r.length 0) := by
  induction xs with
  | nil => rfl
  | cons r t ih =>
      simp only [zip2d, List.zipWith_cons_cons, List.map_cons] at ih ⊢
      rw [zipWith_sub_self_nat, ih]

theorem zip2d_zero_sub (xs : List (List Nat)) :
    zip2d (fun a b => if a < b then 0 else a - b)
      (xs.map (fun r => List.replicate r.length 0)) xs =
      xs.map (fun r => List.replicate r.length 0) := by
  induction xs with
  | nil => rfl
  | cons r t ih =>
      simp only [zip2d, List.map_cons, List.zipWith_cons_cons] at ih ⊢
      rw [zipWith_zero_sub_nat, ih]

/-- Claim C10: subtraction is floored at 0 element-wise: for any exact
counter with non-negative slots and any sketch, `c - c` has all slots 0
and `(c - c) - c` still has all slots 0 — for the exact counter because
of `clip(min=0)`, for the sketch because cells where the minuend is
smaller are forced to 0. -/
theorem c10_clamped_subtraction (c : ExactKmerCounter) (hc : exactInv c)
    (s : CountMinKmerCounter) :
    c.sub c = .returned (exactZeroLike c) ∧
    (exactZeroLike c).sub c = .returned (exactZeroLike c) ∧
    s.sub s = .returned (cmZeroLike s) ∧
    (cmZeroLike s).sub s = .returned (cmZeroLike s) := by
  refine ⟨?_, ?_, ?_, ?_⟩
  · simp only [ExactKmerCounter.sub, ne_eq, not_true_eq_false, false_or, if_false,
      or_self, ite_false]
    rw [zipWith_sub_self_int]
    rfl
  · simp only [ExactKmerCounter.sub, exactZeroLike, ne_eq, not_true_eq_false,
      or_self, ite_false]
    rw [zipWith_zero_sub_int c.array hc]
  · simp only [CountMinKmerCounter.sub, ne_eq, not_true_eq_false, or_self, ite_false]
    rw [zip2d_sub_self]
    rfl
  · simp only [CountMinKmerCounter.sub, cmZeroLike, ne_eq, not_true_eq_false,
      or_self, ite_false]
    rw [zip2d_zero_sub]

/-- Witness for C10 at a concrete exact counter and sketch. -/
theorem c10_clamped_subtraction_witness :
    exact2DNA.sub exact2DNA = .returned (exactZeroLike exact2DNA) ∧
    (exactZeroLike exact2DNA).sub exact2DNA = .returned (exactZeroLike exact2DNA) ∧
    smallSketch.sub smallSketch = .returned (cmZeroLike smallSketch) ∧
    (cmZeroLike smallSketch).sub smallSketch = .returned (cmZeroLike smallSketch) :=
  c10_clamped_subtraction exact2DNA (by decide) smallSketch

/-! ## Claims C5 and C6, amended statements -/

/-- Reading back a dataset just written to a fresh file passes every
check of `BaseCounter.read` and yields the stored dataset. -/
theorem h5_fresh_write_read (k : Nat) (cls : String) (alpha : List Char) (arr : NDArray) :
    h5Write emptyH5 k cls alpha arr =
      .returned ⟨[k], [(k, ⟨cls, base_file_version, alpha, arr⟩)]⟩ ∧
    h5ReadChecks ⟨[k], [(k, ⟨cls, base_file_version, alpha, arr⟩)]⟩ k cls =
      .returned ⟨cls, base_file_version, alpha, arr⟩ := by
  constructor
  · rfl
  · simp [h5ReadChecks, lookupDataset]

/-- Claim C5 (amended): writing a counter to a fresh destination and
reading it back with the same k preserves — for EVERY counter — the
array contents, k and alphabet (and the cell width), and reconstructs
an exact counter fully equal to the original; a sketch, however, is
always reconstructed with the DEFAULT `num_tables`/`table_size` of
`(4, 100000)` in place of its own geometry, so the sketch round trip
yields a counter equal to the original exactly in the case that the
original already used the default geometry. -/
theorem c5_roundtrip_preserves_contents (c : ExactKmerCounter) (s : CountMinKmerCounter) :
    exactRoundtrip c = .returned c ∧
    sketchRoundtrip s = .returned ⟨s.k, s.alphabet, 4, 100000, s.width, s.array⟩ ∧
    (s.num_tables = 4 → s.table_size = 100000 → sketchRoundtrip s = .returned s) := by
  have he := h5_fresh_write_read c.k "ExactKmerCounter" c.alphabet (.int1d c.array)
  have hs := h5_fresh_write_read s.k "CountMinKmerCounter" s.alphabet
    (.uint2d s.width s.array)
  have h2 : sketchRoundtrip s = .returned ⟨s.k, s.alphabet, 4, 100000, s.width, s.array⟩ := by
    simp only [sketchRoundtrip, CountMinKmerCounter.writeH5, hs.1, sketchReadH5, hs.2]
    rfl
  refine ⟨?_, h2, ?_⟩
  · simp only [exactRoundtrip, ExactKmerCounter.writeH5, he.1, exactReadH5, he.2]
  · intro hnt hts
    rw [h2, ← hnt, ← hts]

/-- A sketch that happens to use the default geometry. -/
def defaultShapeSketch : CountMinKmerCounter :=
  ⟨2, alphaDNA, 4, 100000, 16, [[7], [8], [9], [10]]⟩

/-- Witness for C5 at a concrete exact counter and a concrete
default-geometry sketch, discharging the default-geometry hypotheses of
the final conjunct. -/
theorem c5_roundtrip_preserves_contents_witness :
    exactRoundtrip exact2DNA = .returned exact2DNA ∧
    sketchRoundtrip defaultShapeSketch =
      .returned ⟨2, alphaDNA, 4, 100000, 16, [[7], [8], [9], [10]]⟩ ∧
    sketchRoundtrip defaultShapeSketch = .returned defaultShapeSketch := by
  have h := c5_roundtrip_preserves_contents exact2DNA defaultShapeSketch
  exact ⟨h.1, h.2.1, h.2.2 rfl rfl⟩

/-- Claim C6 (amended): the HDF5 reader of `pymer/base.py` rejects a
stored fileversion differing from its supported version 2 in EITHER
direction and rejects a class-name mismatch; the YAML reader of
`pymer/__init__.py` rejects a class-name mismatch but raises its version
error only when the stored fileversion is OLDER than its supported
version 1 — a newer stored fileversion is accepted and a counter is
reconstructed. -/
theorem c6_version_checks (f : H5File) (k : Nat) (cls : String) (ds : H5Dataset)
    (hk : f.klengths.contains k = true) (hds : lookupDataset f k = some ds)
    (obj : YamlObj) (xs : List Int) :
    (ds.className = cls → ds.fileversion ≠ base_file_version →
      h5ReadChecks f k cls = .raised (.valueError "File format version mismatch")) ∧
    (ds.className ≠ cls →
      h5ReadChecks f k cls = .raised (.valueError "Class mismatch")) ∧
    (obj.className ≠ "ExactKmerCounter" →
      exactReadYaml obj = .raised (.valueError "Class mismatch")) ∧
    (obj.className = "ExactKmerCounter" → obj.fileversion < init_file_version →
      exactReadYaml obj = .raised (.valueError "File format version mismatch")) ∧
    (obj.className = "ExactKmerCounter" → init_file_version ≤ obj.fileversion →
      obj.arrayData = .int1d xs →
      exactReadYaml obj = .returned ⟨obj.k, obj.alphabet, xs⟩) := by
  have hm : k ∈ f.klengths := by simpa using hk
  refine ⟨?_, ?_, ?_, ?_, ?_⟩
  · intro hceq hv
    simp [h5ReadChecks, hm, hds, hceq, hv]
  · intro hcne
    simp [h5ReadChecks, hm, hds, hcne]
  · intro hcne
    simp [exactReadYaml, hcne]
  · intro hcls hv
    simp [exactReadYaml, hcls, hv]
  · intro hcls hv harr
    simp [exactReadYaml, hcls, Nat.not_lt.2 hv, harr]

/-- A stored dataset carrying fileversion 3 against the supported 2. -/
def vMismatchFile : H5File :=
  ⟨[3], [(3, ⟨"ExactKmerCounter", 3, alphaDNA, .int1d []⟩)]⟩

/-- A stored dataset whose class tag names the sketch class. -/
def kindMismatchFile : H5File :=
  ⟨[3], [(3, ⟨"CountMinKmerCounter", 2, alphaDNA, .uint2d 16 []⟩)]⟩

/-- A persisted YAML object carrying fileversion 0, older than the
supported 1. -/
def oldYamlObj : YamlObj := ⟨1, alphaDNA, .int1d [0, 0, 0, 0], "ExactKmerCounter", 0⟩

/-- A persisted YAML object whose class tag names the sketch class. -/
def sketchTaggedYamlObj : YamlObj :=
  ⟨1, alphaDNA, .uint2d 16 [[0]], "CountMinKmerCounter", 1⟩

/-- Witness for C6 at concrete files and objects: a version-3 dataset is
rejected by the HDF5 reader, a sketch-tagged dataset is rejected by the
HDF5 exact reader, a sketch-tagged YAML object is rejected by the YAML
exact reader, a version-0 YAML object is rejected, and a version-2 YAML
object is accepted by the version-1 reader. -/
theorem c6_version_checks_witness :
    h5ReadChecks vMismatchFile 3 "ExactKmerCounter" =
      .raised (.valueError "File format version mismatch") ∧
    h5ReadChecks kindMismatchFile 3 "ExactKmerCounter" =
      .raised (.valueError "Class mismatch") ∧
    exactReadYaml sketchTaggedYamlObj = .raised (.valueError "Class mismatch") ∧
    exactReadYaml oldYamlObj = .raised (.valueError "File format version mismatch") ∧
    exactReadYaml newerYamlObj = .returned ⟨1, alphaDNA, [0, 0, 0, 0]⟩ :=
  ⟨(c6_version_checks vMismatchFile 3 "ExactKmerCounter"
      ⟨"ExactKmerCounter", 3, alphaDNA, .int1d []⟩ (by decide) (by decide)
      oldYamlObj [0, 0, 0, 0]).1 rfl (by decide),
   (c6_version_checks kindMismatchFile 3 "ExactKmerCounter"
      ⟨"CountMinKmerCounter", 2, alphaDNA, .uint2d 16 []⟩ (by decide) (by decide)
      oldYamlObj [0, 0, 0, 0]).2.1 (by decide),
   (c6_version_checks vMismatchFile 3 "ExactKmerCounter"
      ⟨"ExactKmerCounter", 3, alphaDNA, .int1d []⟩ (by decide) (by decide)
      sketchTaggedYamlObj [0, 0, 0, 0]).2.2.1 (by decide),
   (c6_version_checks vMismatchFile 3 "ExactKmerCounter"
      ⟨"ExactKmerCounter", 3, alphaDNA, .int1d []⟩ (by decide) (by decide)
      oldYamlObj [0, 0, 0, 0]).2.2.2.1 (by decide) (by decide),
   (c6_version_checks vMismatchFile 3 "ExactKmerCounter"
      ⟨"ExactKmerCounter", 3, alphaDNA, .int1d []⟩ (by decide) (by decide)
      newerYamlObj [0, 0, 0, 0]).2.2.2.2 (by decide) (by decide) (by decide)⟩

/-! ## Claim C7, amended statement -/

/-- Invariant of the outcome of a fallible exact-counter operation: if a
counter is returned it satisfies the exact invariant. -/
def exactResultInv : PyResult ExactKmerCounter → Prop
  | .raised _ => True
  | .returned c => exactInv c

/-- Invariant of the outcome of a fallible sketch operation. -/
def cmResultInv : PyResult CountMinKmerCounter → Prop
  | .raised _ => True
  | .returned c => cmInv c

theorem forall_mem_set {α : Type} {p : α → Prop} {l : List α} {i : Nat} {v : α}
    (h : ∀ x ∈ l, p x) (hv : p v) : ∀ x ∈ l.set i v, p x := by
  intro x hx
  rcases List.mem_or_eq_of_mem_set hx with hmem | rfl
  · exact h x hmem
  · exact hv

theorem forall_mem_zipWith {α β γ : Type} {p : γ → Prop} (f : α → β → γ)
    (l1 : List α) (l2 : List β) (pa : α → Prop) (pb : β → Prop)
    (h1 : ∀ a ∈ l1, pa a) (h2 : ∀ b ∈ l2, pb b)
    (hf : ∀ a b, pa a → pb b → p (f a b)) : ∀ x ∈ List.zipWith f l1 l2, p x := by
  induction l1 generalizing l2 with
  | nil => simp
  | cons a t ih =>
      cases l2 with
      | nil => simp
      | cons b t2 =>
          intro x hx
          simp only [List.zipWith_cons_cons] at hx
          rcases List.mem_cons.1 hx with rfl | htail
          · exact hf a b (h1 a (List.mem_cons_self a t)) (h2 b (List.mem_cons_self b t2))
          · exact ih t2 (fun y hy => h1 y (List.mem_cons_of_mem a hy))
              (fun y hy => h2 y (List.mem_cons_of_mem b hy)) x htail

theorem foldl_inv {σ α : Type} (P : σ → Prop) (f : σ → α → σ)
    (hf : ∀ st a, P st → P (f st a)) (l : List α) (st : σ) (hst : P st) :
    P (List.foldl f st l) := by
  induction l generalizing st with
  | nil => exact hst
  | cons a t ih => exact ih _ (hf st a hst)

theorem getD_nonneg {l : List Int} (h : ∀ v ∈ l, 0 ≤ v) (i : Nat) : 0 ≤ l.getD i 0 := by
  by_cases hi : i < l.length
  · rw [List.getD_eq_getElem _ _ hi]
    exact h _ (List.getElem_mem hi)
  · rw [List.getD_eq_default _ _ (Nat.le_of_not_lt hi)]

theorem foldl_exactStep_raised (ids : List Nat) (e : PyErr) :
    List.foldl exactStep (.raised e) ids = .raised e := by
  induction ids with
  | nil => rfl
  | cons i t ih => exact ih

/-- In the int64 model a slot exactly at `int64max` wraps to `-2 ^ 63`
under one consume increment: the unconditional non-negativity
preservation of the original claim fails at that state. -/
theorem exactStep_wraps_at_int64max :
    exactStep (.returned ⟨1, alphaDNA, [int64max, 0, 0, 0]⟩) 0 =
      .returned ⟨1, alphaDNA, [-9223372036854775808, 0, 0, 0]⟩ := by
  decide

/-- A consume pass preserves non-negativity of every slot provided each
slot has headroom for the increments of the pass (slot plus the number
of identifiers still to be counted stays at most `int64max`); without
the headroom an increment at `int64max` wraps negative. -/
theorem foldl_exactStep_bounded (ids : List Nat) :
    ∀ c : ExactKmerCounter,
      (∀ x ∈ c.array, 0 ≤ x ∧ x + (ids.length : Int) ≤ int64max) →
      exactResultInv (List.foldl exactStep (.returned c) ids) := by
  induction ids with
  | nil =>
      intro c h
      exact fun x hx => (h x hx).1
  | cons i t ih =>
      intro c h
      show exactResultInv (List.foldl exactStep (exactStep (.returned c) i) t)
      by_cases hid : i < c.array.length
      · have hstep : exactStep (.returned c) i =
            .returned ⟨c.k, c.alphabet, c.array.set i (wrap64 (c.array.getD i 0 + 1))⟩ := by
          simp [exactStep, hid]
        rw [hstep]
        apply ih
        intro x hx
        have hlen : (((i :: t).length : Nat) : Int) = (t.length : Int) + 1 := by
          simp
        rcases List.mem_or_eq_of_mem_set hx with hmem | rfl
        · have hx2 := h x hmem
          rw [hlen] at hx2
          exact ⟨hx2.1, by omega⟩
        · have hd0 : 0 ≤ c.array.getD i 0 ∧
              c.array.getD i 0 + (((i :: t).length : Nat) : Int) ≤ int64max := by
            rw [List.getD_eq_getElem _ _ hid]
            exact h _ (List.getElem_mem hid)
          rw [hlen] at hd0
          have hnn : (0 : Int) ≤ (t.length : Int) := Int.natCast_nonneg _
          have hw : wrap64 (c.array.getD i 0 + 1) = c.array.getD i 0 + 1 := by
            apply wrap64_eq_self
            · omega
            · unfold int64max at hd0 ⊢
              omega
          rw [hw]
          constructor
          · omega
          · omega
      · have hstep : exactStep (.returned c) i = .raised .indexError := by
          simp [exactStep, hid]
        rw [hstep, foldl_exactStep_raised]
        exact trivial

theorem exactUnstep_inv (acc : PyResult ExactKmerCounter) (id : Nat)
    (h : exactResultInv acc) : exactResultInv (exactUnstep acc id) := by
  cases acc with
  | raised e => exact trivial
  | returned c =>
      simp only [exactUnstep]
      by_cases hid : id < c.array.length
      · rw [if_pos hid]
        exact forall_mem_set h (le_max_right _ _)
      · rw [if_neg hid]
        exact trivial

theorem mem_getD_row {xs : List (List Nat)} {i : Nat} {x : Nat}
    (hx : x ∈ xs.getD i []) : ∃ r ∈ xs, x ∈ r := by
  by_cases hi : i < xs.length
  · exact ⟨_, List.getElem_mem hi, by rwa [List.getD_eq_getElem _ _ hi] at hx⟩
  · rw [List.getD_eq_default _ _ (Nat.le_of_not_lt hi)] at hx
    exact absurd hx (List.not_mem_nil x)

theorem cells_set2d {p : Nat → Prop} {xs : List (List Nat)} (i j v : Nat)
    (h : ∀ r ∈ xs, ∀ x ∈ r, p x) (hv : p v) :
    ∀ r ∈ set2d xs i j v, ∀ x ∈ r, p x := by
  intro r hr x hx
  rcases List.mem_or_eq_of_mem_set hr with hmem | rfl
  · exact h r hmem x hx
  · rcases List.mem_or_eq_of_mem_set hx with hmem2 | rfl
    · obtain ⟨r0, hr0, hxr0⟩ := mem_getD_row hmem2
      exact h r0 hr0 x hxr0
    · exact hv

theorem mod_le_dtypemax (v w : Nat) : v % 2 ^ w ≤ dtypemax w := by
  have := Nat.mod_lt v (Nat.two_pow_pos w)
  have h2 : 0 < 2 ^ w := Nat.two_pow_pos w
  unfold dtypemax
  omega

theorem cmWriteAll_inv (hash : HashFun) (c : CountMinKmerCounter) (item val : Nat)
    (h : cmInv c) : cmInv (cmWriteAll hash c item val) := by
  show ∀ r ∈ List.foldl
      (fun arr tab => set2d arr tab (cmIdx hash c tab item) (val % 2 ^ c.width))
      c.array (List.range c.num_tables), ∀ x ∈ r, x ≤ dtypemax c.width
  exact foldl_inv (fun arr => ∀ r ∈ arr, ∀ x ∈ r, x ≤ dtypemax c.width)
    (fun arr tab => set2d arr tab (cmIdx hash c tab item) (val % 2 ^ c.width))
    (fun arr tab hab => cells_set2d _ _ _ hab (mod_le_dtypemax val c.width))
    (List.range c.num_tables) c.array h

theorem cells_zip2d {p : Nat → Prop} (f : Nat → Nat → Nat) (xs ys : List (List Nat))
    (hf : ∀ a b, p (f a b)) : ∀ r ∈ zip2d f xs ys, ∀ x ∈ r, p x :=
  forall_mem_zipWith (fun r s => List.zipWith f r s) xs ys
    (fun _ => True) (fun _ => True) (fun _ _ => trivial) (fun _ _ => trivial)
    (fun r s _ _ => forall_mem_zipWith f r s (fun _ => True) (fun _ => True)
      (fun _ _ => trivial) (fun _ _ => trivial) (fun a b _ _ => hf a b))

end Pymer
